/-
Verification of the GetCsvInfo repository against its specification.

The repository has two Python utilities:
  * `refactor_csv.py` — classifies each CSV row's `content` against an
    ordered mapping of pattern rules (regex `code` / exact `abbreviation`)
    and emits records keyed by an MD5 hash of selected fields.
  * `useless_process_csv.py` — projects each CSV file onto a configured
    column list chosen by a keyword found in the file name.

This file gives a shallow embedding of the row/column processing logic of
both scripts (the I/O wrappers — config loading, directory enumeration,
logging setup — are out of scope, as in the spec) and proves or refutes
the specification's claims about it.
-/
import Mathlib

set_option maxRecDepth 4000

namespace GetCsvInfo

/-! ## MD5 (model of Python's `hashlib.md5(...).hexdigest()`)

`refactor_csv.generate_hash` calls `hashlib.md5(raw_str.encode("utf-8")).hexdigest()`.
We implement the MD5 digest over `Nat` byte lists, together with UTF-8
encoding of the input string, so that hash values can be computed inside
the logic. -/

namespace Md5

/-- UTF-8 encoding of a single character, as its list of bytes. -/
def utf8Char (c : Char) : List Nat :=
  let n := c.toNat
  if n < 128 then [n]
  else if n < 2048 then
    [192 + (n >>> 6), 128 + (n &&& 63)]
  else if n < 65536 then
    [224 + (n >>> 12), 128 + ((n >>> 6) &&& 63), 128 + (n &&& 63)]
  else
    [240 + (n >>> 18), 128 + ((n >>> 12) &&& 63), 128 + ((n >>> 6) &&& 63), 128 + (n &&& 63)]

/-- UTF-8 encoding of a string (Python `s.encode("utf-8")`). -/
def utf8Bytes (s : String) : List Nat :=
  (s.toList.map utf8Char).flatten

/-- The 64 MD5 round constants `K[i] = floor(abs(sin(i+1)) * 2^32)`. -/
def kTable : List Nat :=
  [3614090360, 3905402710, 606105819, 3250441966, 4118548399, 1200080426, 2821735955, 4249261313,
   1770035416, 2336552879, 4294925233, 2304563134, 1804603682, 4254626195, 2792965006, 1236535329,
   4129170786, 3225465664, 643717713, 3921069994, 3593408605, 38016083, 3634488961, 3889429448,
   568446438, 3275163606, 4107603335, 1163531501, 2850285829, 4243563512, 1735328473, 2368359562,
   4294588738, 2272392833, 1839030562, 4259657740, 2763975236, 1272893353, 4139469664, 3200236656,
   681279174, 3936430074, 3572445317, 76029189, 3654602809, 3873151461, 530742520, 3299628645,
   4096336452, 1126891415, 2878612391, 4237533241, 1700485571, 2399980690, 4293915773, 2240044497,
   1873313359, 4264355552, 2734768916, 1309151649, 4149444226, 3174756917, 718787259, 3951481745]

/-- The MD5 per-round left-rotation amounts. -/
def sTable : List Nat :=
  [7, 12, 17, 22, 7, 12, 17, 22, 7, 12, 17, 22, 7, 12, 17, 22,
   5, 9, 14, 20, 5, 9, 14, 20, 5, 9, 14, 20, 5, 9, 14, 20,
   4, 11, 16, 23, 4, 11, 16, 23, 4, 11, 16, 23, 4, 11, 16, 23,
   6, 10, 15, 21, 6, 10, 15, 21, 6, 10, 15, 21, 6, 10, 15, 21]

/-- The 32-bit left rotation (inputs are < 2^32). -/
def rotl (x n : Nat) : Nat :=
  ((x <<< n) % 4294967296) + (x >>> (32 - n))

/-- Little-endian byte list of `x`, `n` bytes wide. -/
def leBytes (n x : Nat) : List Nat :=
  (List.range n).map (fun i => (x >>> (8 * i)) % 256)

/-- MD5 padding: append `0x80`, zero bytes to reach 56 mod 64, then the
64-bit little-endian bit length. -/
def md5Pad (msg : List Nat) : List Nat :=
  let len := msg.length
  let zeros := (120 - ((len + 1) % 64)) % 64
  msg ++ (128 :: List.replicate zeros 0) ++ leBytes 8 ((8 * len) % 18446744073709551616)

/-- Split a byte list into 64-byte blocks (structural recursion on a fuel
bound, so that the kernel can evaluate it; `fuel = l.length` suffices). -/
def chunksAux : Nat → List Nat → List (List Nat)
  | 0, _ => []
  | fuel + 1, l => if l = [] then [] else l.take 64 :: chunksAux fuel (l.drop 64)

/-- Split a byte list into 64-byte blocks. -/
def chunks64 (l : List Nat) : List (List Nat) :=
  chunksAux l.length l

/-- The `j`-th little-endian 32-bit word of a 64-byte block. -/
def word (blk : List Nat) (j : Nat) : Nat :=
  blk.getD (4 * j) 0 + 256 * blk.getD (4 * j + 1) 0
    + 65536 * blk.getD (4 * j + 2) 0 + 16777216 * blk.getD (4 * j + 3) 0

/-- One MD5 round (round index `i`, state `(a, b, c, d)`). -/
def md5Round (blk : List Nat) (st : Nat × Nat × Nat × Nat) (i : Nat) :
    Nat × Nat × Nat × Nat :=
  let a := st.1
  let b := st.2.1
  let c := st.2.2.1
  let d := st.2.2.2
  let f :=
    if i < 16 then (b &&& c) ||| ((b ^^^ 4294967295) &&& d)
    else if i < 32 then (d &&& b) ||| ((d ^^^ 4294967295) &&& c)
    else if i < 48 then b ^^^ c ^^^ d
    else c ^^^ (b ||| (d ^^^ 4294967295))
  let g :=
    if i < 16 then i
    else if i < 32 then (5 * i + 1) % 16
    else if i < 48 then (3 * i + 5) % 16
    else (7 * i) % 16
  let tmp := (a + f + kTable.getD i 0 + word blk g) % 4294967296
  (d, (b + rotl tmp (sTable.getD i 0)) % 4294967296, b, c)

/-- Process one 64-byte block. -/
def md5Block (st : Nat × Nat × Nat × Nat) (blk : List Nat) :
    Nat × Nat × Nat × Nat :=
  let r := (List.range 64).foldl (md5Round blk) st
  ((st.1 + r.1) % 4294967296, (st.2.1 + r.2.1) % 4294967296,
   (st.2.2.1 + r.2.2.1) % 4294967296, (st.2.2.2 + r.2.2.2) % 4294967296)

/-- MD5 digest of a byte list, as 16 bytes. -/
def md5Bytes (msg : List Nat) : List Nat :=
  let st := (chunks64 (md5Pad msg)).foldl md5Block
    (1732584193, 4023233417, 2562383102, 271733878)
  leBytes 4 st.1 ++ leBytes 4 st.2.1 ++ leBytes 4 st.2.2.1 ++ leBytes 4 st.2.2.2

/-- Lowercase hex digit. -/
def hexChar (n : Nat) : Char :=
  if n < 10 then Char.ofNat (48 + n) else Char.ofNat (87 + n)

/-- Two lowercase hex digits of a byte. -/
def byteHex (b : Nat) : List Char :=
  [hexChar (b / 16), hexChar (b % 16)]

end Md5

/-- Lowercase hexadecimal MD5 digest of the UTF-8 encoding of `s`
(Python `hashlib.md5(s.encode("utf-8")).hexdigest()`). -/
def md5hex (s : String) : String :=
  String.mk ((Md5.md5Bytes (Md5.utf8Bytes s)).map Md5.byteHex).flatten

/-! ## Python regular expressions (model of the `re` module)

`refactor_csv.process_csv_file` calls `re.match(regex, content_str)`.
We model patterns with Mathlib's `RegularExpression Char` and Python's
`re.match` position-0 semantics (a match need not consume the whole
string).  `pyCompile` parses the pattern string, covering the fragment of
Python regex syntax consisting of literal characters, the postfix
quantifiers `*` `+` `?`, and an optional leading `^` anchor (redundant
under `re.match`); a pattern outside this fragment — in particular the
unbalanced "(" which raises `re.error` in Python — is rejected with
`none`, which the classifier treats as the `re.error` case. -/

/-- Regular expressions over characters. -/
abbrev Rx := RegularExpression Char

/-- Characters that are not plain literals in the modelled regex fragment. -/
def isMeta (c : Char) : Bool :=
  c = '.' || c = '(' || c = ')' || c = '[' || c = ']' || c = '|' || c = '\\' ||
  c = '^' || c = '$' || c = '*' || c = '+' || c = '?' || c = '\x7b' || c = '\x7d'

/-- Parse a sequence of literal atoms with optional postfix quantifiers. -/
def parseSeq : List Char → Option Rx
  | [] => some 1
  | c :: cs =>
    if isMeta c then none
    else
      let atom := RegularExpression.char c
      match cs with
      | [] => some (RegularExpression.comp atom 1)
      | q :: rest =>
        if q = '*' then
          (parseSeq rest).map (fun r => RegularExpression.comp atom.star r)
        else if q = '+' then
          (parseSeq rest).map
            (fun r => RegularExpression.comp (RegularExpression.comp atom atom.star) r)
        else if q = '?' then
          (parseSeq rest).map
            (fun r => RegularExpression.comp (RegularExpression.plus atom 1) r)
        else
          (parseSeq (q :: rest)).map (fun r => RegularExpression.comp atom r)

/-- Model of `re.compile`: `none` models a pattern `re` rejects
(`re.error`) or one outside the modelled fragment.  A leading `^` is
dropped: under `re.match` it only re-asserts position 0. -/
def pyCompile (pattern : String) : Option Rx :=
  match pattern.toList with
  | '^' :: rest => parseSeq rest
  | cs => parseSeq cs

/-- Position-0 matching: does `r` match some prefix of `s`?  This is the
semantics of Python's `re.match` (truthiness of the match object). -/
def matchHere : Rx → List Char → Bool
  | r, [] => r.matchEpsilon
  | r, c :: cs => r.matchEpsilon || matchHere (r.deriv c) cs

/-- Model of `re.match(pattern, s)`: `Except.error` models `re.error`
(malformed pattern), `Except.ok b` whether a match at position 0 exists. -/
def pyReMatch (pattern s : String) : Except Unit Bool :=
  match pyCompile pattern with
  | none => Except.error ()
  | some r => Except.ok (matchHere r s.toList)


/-! ## Python cell values

A pandas cell as `refactor_csv` sees it: `pynone` models Python `None`
(in particular `row.get(col)` for an absent column), `nan` models the
float NaN that pandas uses for a missing value in a present column, and
`pystr s` a string cell.  `pyStrOf` is Python's `str()` on these values;
note `str(None) = "None"` and `str(nan) = "nan"`. -/

/-- A cell value as seen through `row.get`. -/
inductive PyVal
  | pynone
  | nan
  | pystr (s : String)
deriving DecidableEq, Repr

/-- Model of `pd.isna` on a cell value. -/
def pyIsna : PyVal → Bool
  | .pynone => true
  | .nan => true
  | .pystr _ => false

/-- Model of Python `str()` on a cell value. -/
def pyStrOf : PyVal → String
  | .pynone => "None"
  | .nan => "nan"
  | .pystr s => s

/-- Model of Python `content == ""` on a cell value: true only for the
string cell `""` (never for `None`/NaN). -/
def pyEqEmpty : PyVal → Bool
  | .pystr s => s == ""
  | _ => false

/-- Model of Python `str.strip()`: remove leading and trailing
whitespace. -/
def pyStrip (s : String) : String :=
  String.mk (((s.toList.dropWhile Char.isWhitespace).reverse.dropWhile
    Char.isWhitespace).reverse)

/-! ## The pattern classifier (`refactor_csv.py`) -/

/-- One entry of `pattern_mapping`: optional regex `code` and optional
exact-match `abbreviation` (absent YAML keys give Python `None`,
modelled as `none`). -/
structure PatternConfig where
  code : Option String
  abbreviation : Option String
deriving DecidableEq, Repr

/-- A CSV row restricted to the fields the classifier reads.  `content`
is the cell of the (present) `content` column; `x`, `y`, `z`, `layer`
are read via `row.get` and are `pynone` when the column is absent;
`style` is the cell after the script's `df["style"] = None` patch-in. -/
structure Row where
  content : PyVal
  x : PyVal
  y : PyVal
  z : PyVal
  layer : PyVal
  style : PyVal
deriving DecidableEq, Repr

/-- The `item` dict built for a matched row: `content` holds the trimmed
content string, the remaining fields the raw `row.get` values. -/
structure Item where
  content : String
  x : PyVal
  y : PyVal
  z : PyVal
  layer : PyVal
  style : PyVal
deriving DecidableEq, Repr

/-- Model of `refactor_csv.generate_hash`: MD5 of the concatenation of
`str(...)` of the `content`, `x`, `y`, `z`, `layer` entries of the item
(at the call site all five keys are present, so the `.get(key, "")`
defaults never fire; `None`/NaN values are rendered by `str` as
`"None"`/`"nan"`).  `style` does not participate. -/
def generate_hash (item : Item) : String :=
  md5hex (item.content ++ pyStrOf item.x ++ pyStrOf item.y ++
    pyStrOf item.z ++ pyStrOf item.layer)

/-- A row of the classifier's output table, with the script's final
column order `id, content, x, y, z, layer, style`. -/
structure ClassifiedRecord where
  id : String
  content : String
  x : PyVal
  y : PyVal
  z : PyVal
  layer : PyVal
  style : PyVal
deriving DecidableEq, Repr

/-- The `item` dict built from trimmed content `c` and row `row`. -/
def mkItem (c : String) (row : Row) : Item :=
  ⟨c, row.x, row.y, row.z, row.layer, row.style⟩

/-- The emitted record for trimmed content `c` and row `row`
(`item["id"] = generate_hash(item)`). -/
def mkRecord (c : String) (row : Row) : ClassifiedRecord :=
  ⟨generate_hash (mkItem c row), c, row.x, row.y, row.z, row.layer, row.style⟩

/-- Logged events of the classifier's inner loop. -/
inductive LogEvent
  | regexError (pattern : String)
deriving DecidableEq, Repr

/-- The rule loop of `refactor_csv.process_csv_file` (lines 64-106) for a
single row: iterate the pattern mapping in order; skip a rule whose
`code` is falsy; on `re.error` log and continue with the next rule; on a
position-0 regex match, or on regex failure with a truthy `abbreviation`
equal to the trimmed content, emit the item and stop. -/
def tryRules : List (String × PatternConfig) → String → Row →
    Option ClassifiedRecord × List LogEvent
  | [], _, _ => (none, [])
  | (_, pc) :: rest, c, row =>
    match pc.code with
    | none => tryRules rest c row
    | some rx =>
      if rx = "" then tryRules rest c row
      else
        match pyCompile rx with
        | none =>
          let t := tryRules rest c row
          (t.1, LogEvent.regexError rx :: t.2)
        | some r =>
          if matchHere r c.toList then (some (mkRecord c row), [])
          else
            match pc.abbreviation with
            | some a =>
              if (a != "") && (c == a) then (some (mkRecord c row), [])
              else tryRules rest c row
            | none => tryRules rest c row

/-- The per-row step of `process_csv_file` (lines 55-106): skip the row
when `pd.isna(content)` or `content == ""`, otherwise run the rule loop
on the trimmed content string. -/
def processRow (pats : List (String × PatternConfig)) (row : Row) :
    Option ClassifiedRecord × List LogEvent :=
  if pyIsna row.content || pyEqEmpty row.content then (none, [])
  else tryRules pats (pyStrip (pyStrOf row.content)) row

/-- The row loop of `process_csv_file`: accumulate emitted records and
logged events in row-encounter order. -/
def processFile (pats : List (String × PatternConfig)) :
    List Row → List ClassifiedRecord × List LogEvent
  | [] => ([], [])
  | row :: rest =>
    let h := processRow pats row
    let t := processFile pats rest
    (h.1.toList ++ t.1, h.2 ++ t.2)

/-- The output table written by `process_csv_file` (lines 108-120):
`none` when no records matched (nothing is written), otherwise the
record list in row-encounter order. -/
def outputTable (pats : List (String × PatternConfig)) (rows : List Row) :
    Option (List ClassifiedRecord) :=
  let rs := (processFile pats rows).1
  if rs = [] then none else some rs

/-- The condition under which the loop body of `process_csv_file`
matches rule `pc` against a trimmed content `c`: the rule's `code` must
be truthy and compile, and then either the regex matches at position 0,
or it fails and the rule's truthy `abbreviation` equals `c` exactly. -/
def ruleHit (pc : PatternConfig) (c : String) : Bool :=
  match pc.code with
  | none => false
  | some rx =>
    if rx = "" then false
    else
      match pyCompile rx with
      | none => false
      | some r =>
        matchHere r c.toList ||
          (match pc.abbreviation with
           | some a => (a != "") && (c == a)
           | none => false)

/-- The condition under which rule `pc` raises `re.error` when the loop
body evaluates it. -/
def ruleErr (pc : PatternConfig) : Bool :=
  match pc.code with
  | none => false
  | some rx => if rx = "" then false else (pyCompile rx).isNone


/-! ## The column projector (`useless_process_csv.py`) -/

namespace Projector

/-- Model of Python `Path(name).stem` for a plain file name: the name
without its suffix, where the suffix is `name[i:]` for the last dot
index `i` when `0 < i < len(name) - 1`, and empty otherwise. -/
def pathStem (name : String) : String :=
  let cs := name.toList
  let dots := (cs.enum.filter (fun p => p.2 = '.')).map Prod.fst
  match dots.getLast? with
  | some i => if 0 < i ∧ i + 1 < cs.length then String.mk (cs.take i) else name
  | none => name

/-- The fixed keyword list of `get_file_keyword`, in its declared order
(most specific first). -/
def keywords : List String :=
  ["L3M2能耗计量", "L3M1能耗计量", "L2M能耗计量", "L1M2能耗计量", "L1M1能耗计量",
   "B2能耗计量", "B1能耗计量", "L3能耗计量", "L2能耗计量", "L1能耗计量"]

/-- Python `keyword in name` (substring containment). -/
def strContains (name keyword : String) : Bool :=
  decide (keyword.toList <:+: name.toList)

/-- The keyword loop of `get_file_keyword`: return the first keyword
occurring as a substring of the stem, else "default". -/
def findKeyword : List String → String → String
  | [], _ => "default"
  | k :: rest, name => if strContains name k then k else findKeyword rest name

/-- Model of `useless_process_csv.get_file_keyword`. -/
def get_file_keyword (filename : String) : String :=
  findKeyword keywords (pathStem filename)

/-- One entry of `csv_columns_mapping`: a column list and an optional
description. -/
structure MapEntry where
  columns : List String
  description : Option String
deriving DecidableEq, Repr

/-- The column-list resolution in `main` (lines 147-153): use the
keyword's entry when present, else the mapping's own "default" entry
(`csv_mapping.get("default", {}).get("columns", [])`). -/
def resolveColumns (mapping : List (String × MapEntry)) (keyword : String) :
    List String :=
  match mapping.lookup keyword with
  | some e => e.columns
  | none =>
    match mapping.lookup "default" with
    | some e => e.columns
    | none => []

/-- A tabular file: a header of column names and rows of cells aligned
with the header (cell `j` of a row belongs to column `columns[j]`). -/
structure DataFrame where
  columns : List String
  rows : List (List String)
deriving DecidableEq, Repr

/-- Index of the first occurrence of a column name in a header. -/
def colIndex : List String → String → Option Nat
  | [], _ => none
  | c :: rest, t => if c = t then some 0 else (colIndex rest t).map (· + 1)

/-- The cell of `row` (aligned with header `cols`) at column `c`. -/
def cellOf (cols : List String) (row : List String) (c : String) : String :=
  match colIndex cols c with
  | some i => row.getD i ""
  | none => ""

/-- Logged events of the projector. -/
inductive ProjLog
  | missingCols (cols : List String)
  | noColumns
  | saved (ncols nrows : Nat)
deriving DecidableEq, Repr

/-- Model of `useless_process_csv.process_csv_file` (lines 65-92): warn about
requested columns absent from the source, keep the requested columns
that exist (in requested order), error and skip when none exists,
otherwise emit the projected table `df[existing_columns]`. -/
def process_csv_file (df : DataFrame) (columns : List String) :
    Option DataFrame × List ProjLog :=
  let available := df.columns
  let missing := columns.filter (fun c => decide (c ∉ available))
  let logs := if missing.isEmpty then [] else [ProjLog.missingCols missing]
  let existing := columns.filter (fun c => decide (c ∈ available))
  if existing.isEmpty then
    (none, logs ++ [ProjLog.noColumns])
  else
    let out : DataFrame :=
      ⟨existing, df.rows.map (fun row => existing.map (cellOf df.columns row))⟩
    (some out, logs ++ [ProjLog.saved existing.length df.rows.length])

/-- Cell of row `i`, column `c` of a table, `none` when the row does not
exist. -/
def valueAt (df : DataFrame) (i : Nat) (c : String) : Option String :=
  (df.rows[i]?).map (fun row => cellOf df.columns row c)


end Projector

/-- The id formula as the specification words it, for comparison with the
code: MD5 of the concatenation of `content`, `x`, `y`, `z`, `layer`
"each coerced to its textual representation, with missing values
rendered as empty string". -/
def specGenerateHash (content x y z layer : Option String) : String :=
  md5hex ((content.getD "") ++ (x.getD "") ++ (y.getD "") ++
    (z.getD "") ++ (layer.getD ""))

/-- RFC 1321 test vector: the empty string. -/
theorem md5hex_empty : md5hex "" = "d41d8cd98f00b204e9800998ecf8427e" := by decide

/-- RFC 1321 test vector: the string "abc". -/
theorem md5hex_abc : md5hex "abc" = "900150983cd24fb0d6963f7d28e17f72" := by decide

/-- The test `matchHere` succeeds exactly when the regex `rmatch`-accepts some
prefix of the input. -/
theorem matchHere_iff_rmatch (r : Rx) (s : List Char) :
    matchHere r s = true ↔ ∃ p q, p ++ q = s ∧ r.rmatch p = true := by
  induction s generalizing r with
  | nil =>
    constructor
    · intro h
      exact ⟨[], [], rfl, h⟩
    · rintro ⟨p, q, hpq, hm⟩
      obtain ⟨hp, _⟩ := List.append_eq_nil.mp hpq
      subst hp
      exact hm
  | cons c cs ih =>
    simp only [matchHere, Bool.or_eq_true]
    constructor
    · rintro (h | h)
      · exact ⟨[], c :: cs, rfl, h⟩
      · obtain ⟨p, q, hpq, hm⟩ := (ih (r.deriv c)).mp h
        exact ⟨c :: p, q, by rw [List.cons_append, hpq], hm⟩
    · rintro ⟨p, q, hpq, hm⟩
      cases p with
      | nil =>
        left
        exact hm
      | cons a p' =>
        right
        rw [List.cons_append, List.cons_eq_cons] at hpq
        obtain ⟨hac, hpq'⟩ := hpq
        subst hac
        exact (ih (r.deriv a)).mpr ⟨p', q, hpq', hm⟩

/-- The test `matchHere` succeeds exactly when some prefix of the input is in the
language of the regex. -/
theorem matchHere_iff_matches (r : Rx) (s : List Char) :
    matchHere r s = true ↔ ∃ p q, p ++ q = s ∧ p ∈ r.matches' := by
  rw [matchHere_iff_rmatch]
  constructor
  · rintro ⟨p, q, hpq, hm⟩
    exact ⟨p, q, hpq, (RegularExpression.rmatch_iff_matches' r p).mp hm⟩
  · rintro ⟨p, q, hpq, hm⟩
    exact ⟨p, q, hpq, (RegularExpression.rmatch_iff_matches' r p).mpr hm⟩

/-- Characterization of the rule loop: the emitted record (independent of
which rule matched) comes from the first rule in declared order whose
`ruleHit` holds, and exactly the malformed rules strictly before that
first hit are logged. -/
theorem tryRules_eq (pats : List (String × PatternConfig)) (c : String) (row : Row) :
    tryRules pats c row =
      ((pats.find? (fun p => ruleHit p.2 c)).map (fun _ => mkRecord c row),
       ((pats.takeWhile (fun p => !ruleHit p.2 c)).filter (fun p => ruleErr p.2)).map
         (fun p => LogEvent.regexError (p.2.code.getD ""))) := by
  induction pats with
  | nil => rfl
  | cons hd tl ih =>
    obtain ⟨lbl, pc⟩ := hd
    show tryRules ((lbl, pc) :: tl) c row = _
    rcases hcode : pc.code with _ | rx
    · have hhit : ruleHit pc c = false := by simp [ruleHit, hcode]
      have herr : ruleErr pc = false := by simp [ruleErr, hcode]
      simp only [tryRules, hcode, List.find?, List.takeWhile, hhit, herr,
        Bool.not_false, List.filter, ih]
    · by_cases hrx : rx = ""
      · subst hrx
        have hhit : ruleHit pc c = false := by simp [ruleHit, hcode]
        have herr : ruleErr pc = false := by simp [ruleErr, hcode]
        simp only [tryRules, hcode, if_true, List.find?, List.takeWhile,
          hhit, herr, Bool.not_false, List.filter, ih]
      · rcases hcomp : pyCompile rx with _ | r
        · have hhit : ruleHit pc c = false := by
            simp [ruleHit, hcode, hrx, hcomp]
          have herr : ruleErr pc = true := by
            simp [ruleErr, hcode, hrx, hcomp]
          have hpat : pc.code.getD "" = rx := by simp [hcode]
          simp only [tryRules, hcode, if_neg hrx, hcomp, List.find?,
            List.takeWhile, hhit, herr, Bool.not_false, List.filter, ih, hpat,
            List.map_cons, Option.getD_some]
        · by_cases hm : matchHere r c.toList
          · have hhit : ruleHit pc c = true := by
              simp only [ruleHit, hcode, if_neg hrx, hcomp, Bool.or_eq_true]
              exact Or.inl hm
            simp only [tryRules, hcode, if_neg hrx, hcomp, if_pos hm,
              List.find?, List.takeWhile, hhit, Bool.not_true,
              List.filter_nil, List.map_nil]
            rfl
          · rcases habb : pc.abbreviation with _ | a
            · have hhit : ruleHit pc c = false := by
                simp only [ruleHit, hcode, if_neg hrx, hcomp, habb,
                  Bool.or_false]
                simpa using hm
              have herr : ruleErr pc = false := by
                simp [ruleErr, hcode, hrx, hcomp]
              simp only [tryRules, hcode, if_neg hrx, hcomp, if_neg hm, habb,
                List.find?, List.takeWhile, hhit, herr, Bool.not_false,
                List.filter, ih]
            · by_cases hab : ((a != "") && (c == a)) = true
              · have hhit : ruleHit pc c = true := by
                  simp only [ruleHit, hcode, if_neg hrx, hcomp, habb, hab,
                    Bool.or_true]
                simp only [tryRules, hcode, if_neg hrx, hcomp, if_neg hm, habb,
                  if_pos hab, List.find?, List.takeWhile, hhit, Bool.not_true,
                  List.filter_nil, List.map_nil]
                rfl
              · have hhit : ruleHit pc c = false := by
                  simp only [ruleHit, hcode, if_neg hrx, hcomp, habb,
                    Bool.or_eq_false_iff]
                  exact ⟨by simpa using hm, by simpa using hab⟩
                have herr : ruleErr pc = false := by
                  simp [ruleErr, hcode, hrx, hcomp]
                simp only [tryRules, hcode, if_neg hrx, hcomp, if_neg hm, habb,
                  if_neg hab, List.find?, List.takeWhile, hhit, herr,
                  Bool.not_false, List.filter, ih]

/-- A record produced for one row is the item built from the row's
trimmed content string and its raw field values. -/
theorem processRow_some {pats : List (String × PatternConfig)} {row : Row}
    {r : ClassifiedRecord} (h : (processRow pats row).1 = some r) :
    r = mkRecord (pyStrip (pyStrOf row.content)) row := by
  unfold processRow at h
  by_cases hskip : (pyIsna row.content || pyEqEmpty row.content) = true
  · rw [if_pos hskip] at h
    simp at h
  · rw [if_neg hskip, tryRules_eq] at h
    rcases hf : List.find? (fun p => ruleHit p.2 (pyStrip (pyStrOf row.content))) pats with _ | p
    · rw [hf] at h
      simp at h
    · rw [hf] at h
      simp only [Option.map_some'] at h
      exact (Option.some_injective _ h).symm

/-- Every record in the classifier's output comes from some input row,
as the item built from that row's trimmed content and raw fields. -/
theorem processFile_mem {pats : List (String × PatternConfig)} {rows : List Row}
    {r : ClassifiedRecord} (hr : r ∈ (processFile pats rows).1) :
    ∃ row, row ∈ rows ∧ r = mkRecord (pyStrip (pyStrOf row.content)) row := by
  induction rows with
  | nil => simp [processFile] at hr
  | cons row rest ih =>
    simp only [processFile] at hr
    rw [List.mem_append] at hr
    rcases hr with hr | hr
    · refine ⟨row, List.mem_cons_self row rest, ?_⟩
      have h1 : (processRow pats row).1 = some r := by
        rcases hpr : (processRow pats row).1 with _ | r'
        · rw [hpr] at hr
          simp at hr
        · rw [hpr] at hr
          simp only [Option.toList_some, List.mem_singleton] at hr
          rw [hr]
      exact processRow_some h1
    · obtain ⟨row', hmem, heq⟩ := ih hr
      exact ⟨row', List.mem_cons_of_mem _ hmem, heq⟩

/-- The predicate `ruleHit` unfolded into the semantic match condition. -/
theorem ruleHit_iff (pc : PatternConfig) (c : String) :
    ruleHit pc c = true ↔
      ∃ rx r, pc.code = some rx ∧ rx ≠ "" ∧ pyCompile rx = some r ∧
        (matchHere r c.toList = true ∨
          (matchHere r c.toList = false ∧
            ∃ a, pc.abbreviation = some a ∧ a ≠ "" ∧ c = a)) := by
  constructor
  · intro h
    rcases hcode : pc.code with _ | rx
    · simp [ruleHit, hcode] at h
    · by_cases hrx : rx = ""
      · subst hrx
        simp [ruleHit, hcode] at h
      · rcases hcomp : pyCompile rx with _ | r
        · simp [ruleHit, hcode, hrx, hcomp] at h
        · simp only [ruleHit, hcode, if_neg hrx, hcomp, Bool.or_eq_true] at h
          refine ⟨rx, r, rfl, hrx, hcomp, ?_⟩
          by_cases hm : matchHere r c.toList = true
          · exact Or.inl hm
          · rcases h with h | h
            · exact absurd h hm
            · rcases habb : pc.abbreviation with _ | a
              · rw [habb] at h
                simp at h
              · rw [habb] at h
                rw [Bool.and_eq_true] at h
                refine Or.inr ⟨by simpa using hm, a, rfl, ?_, ?_⟩
                · simpa using h.1
                · exact eq_of_beq h.2
  · rintro ⟨rx, r, hcode, hrx, hcomp, hcond⟩
    rcases hcond with hm | ⟨hmf, a, habb, ha, hc⟩
    · simp only [ruleHit, hcode, if_neg hrx, hcomp, Bool.or_eq_true]
      exact Or.inl hm
    · have h1 : (a != "") = true := by simpa using ha
      have h2 : (c == a) = true := by rw [hc]; simp
      simp [ruleHit, hcode, hrx, hcomp, habb, h1, h2]

/-- C1 counterexample: the spec's own scenario — the single rule
`B = {abbreviation: "GND"}` with no regex, and a row whose trimmed
content is exactly "GND" — emits NO record: the loop body skips any rule
whose `code` is falsy (`if not regex: continue`) before the abbreviation
is ever compared, so the claim's "emits exactly one Classified Record"
fails. -/
theorem c1_counterexample :
    (processFile [("B", ⟨none, some "GND"⟩)]
        [⟨PyVal.pystr "GND", PyVal.pynone, PyVal.pynone, PyVal.pynone,
          PyVal.pynone, PyVal.pynone⟩]).1 = [] ∧
    (processFile [("B", ⟨none, some "GND"⟩)]
        [⟨PyVal.pystr "GND", PyVal.pynone, PyVal.pynone, PyVal.pynone,
          PyVal.pynone, PyVal.pynone⟩]).1.length ≠ 1 := by
  exact ⟨rfl, by decide⟩

/-- C1 (amended): a rule matches the trimmed content iff it has a
non-empty regex that compiles, and either the regex matches at position
0, or the regex fails at position 0 and the rule's non-empty
abbreviation equals the trimmed content exactly.  In particular a rule
with no regex configured never matches, whatever its abbreviation; when
such a rule is alone, no record is emitted. -/
theorem c1_amended (lbl : String) (pc : PatternConfig) (c : String) (row : Row) :
    ((tryRules [(lbl, pc)] c row).1.isSome = true ↔
      ∃ rx r, pc.code = some rx ∧ rx ≠ "" ∧ pyCompile rx = some r ∧
        ((∃ p q, p ++ q = c.toList ∧ p ∈ r.matches') ∨
          (matchHere r c.toList = false ∧
            ∃ a, pc.abbreviation = some a ∧ a ≠ "" ∧ c = a))) := by
  rw [tryRules_eq]
  have hstep : (List.find? (fun p => ruleHit p.2 c) [(lbl, pc)]).isSome = true ↔
      ruleHit pc c = true := by
    rcases hh : ruleHit pc c with _ | _
    · simp [List.find?, hh]
    · simp [List.find?, hh]
  constructor
  · intro h
    simp only [Option.isSome_map'] at h
    obtain ⟨rx, r, h1, h2, h3, h4⟩ := (ruleHit_iff pc c).mp (hstep.mp h)
    refine ⟨rx, r, h1, h2, h3, ?_⟩
    rcases h4 with h4 | h4
    · exact Or.inl ((matchHere_iff_matches r c.toList).mp h4)
    · exact Or.inr h4
  · rintro ⟨rx, r, h1, h2, h3, h4⟩
    simp only [Option.isSome_map']
    refine hstep.mpr ((ruleHit_iff pc c).mpr ⟨rx, r, h1, h2, h3, ?_⟩)
    rcases h4 with h4 | h4
    · exact Or.inl ((matchHere_iff_matches r c.toList).mpr h4)
    · exact Or.inr h4

/-- C2 counterexample: for a matched row with `x`, `y`, `z`, `layer` all
missing, the emitted id is `md5("GNDNoneNoneNoneNone")` — Python's
`str(None)` is `"None"` — which differs from the claim's formula with
missing values rendered as the empty string, `md5("GND")`. -/
theorem c2_counterexample :
    ((processFile [("G", ⟨some "GND", none⟩)]
        [⟨PyVal.pystr "GND", PyVal.pynone, PyVal.pynone, PyVal.pynone,
          PyVal.pynone, PyVal.pynone⟩]).1.map ClassifiedRecord.id) =
      [md5hex "GNDNoneNoneNoneNone"] ∧
    md5hex "GNDNoneNoneNoneNone" ≠
      specGenerateHash (some "GND") none none none none := by
  exact ⟨by decide, by decide⟩

/-- C2 (amended): every emitted id is the lowercase hexadecimal MD5
digest of the concatenation of the record's content (the trimmed content
string) and the `str()`-renderings of `x`, `y`, `z`, `layer` — where a
missing/null value renders as `"None"`/`"nan"`, not as the empty string.
The id is therefore a function of that tuple alone: identical across
runs and independent of the row's position in the file. -/
theorem c2_amended (pats : List (String × PatternConfig)) (rows : List Row)
    (r : ClassifiedRecord) (hr : r ∈ (processFile pats rows).1) :
    r.id = md5hex (r.content ++ pyStrOf r.x ++ pyStrOf r.y ++
      pyStrOf r.z ++ pyStrOf r.layer) := by
  obtain ⟨row, _, heq⟩ := processFile_mem hr
  subst heq
  rfl

/-- Witness for C2 (amended) at a concrete input. -/
theorem c2_witness :
    (mkRecord "GND" ⟨PyVal.pystr "GND", PyVal.pynone, PyVal.pynone,
        PyVal.pynone, PyVal.pynone, PyVal.pynone⟩) ∈
      (processFile [("G", ⟨some "GND", none⟩)]
        [⟨PyVal.pystr "GND", PyVal.pynone, PyVal.pynone, PyVal.pynone,
          PyVal.pynone, PyVal.pynone⟩]).1 ∧
    (mkRecord "GND" ⟨PyVal.pystr "GND", PyVal.pynone, PyVal.pynone,
        PyVal.pynone, PyVal.pynone, PyVal.pynone⟩).id =
      md5hex ("GND" ++ pyStrOf PyVal.pynone ++ pyStrOf PyVal.pynone ++
        pyStrOf PyVal.pynone ++ pyStrOf PyVal.pynone) := by
  have hm : (mkRecord "GND" ⟨PyVal.pystr "GND", PyVal.pynone, PyVal.pynone,
      PyVal.pynone, PyVal.pynone, PyVal.pynone⟩) ∈
      (processFile [("G", ⟨some "GND", none⟩)]
        [⟨PyVal.pystr "GND", PyVal.pynone, PyVal.pynone, PyVal.pynone,
          PyVal.pynone, PyVal.pynone⟩]).1 := by decide
  exact ⟨hm, c2_amended _ _ _ hm⟩

/-- Any list decomposes at the first element satisfying the rule-hit
test: used to phrase first-match-wins. -/
theorem find?_first {α : Type} (f : α → Bool) (pre : List α) (p : α)
    (post : List α) (hp : f p = true) (hpre : ∀ q ∈ pre, f q = false) :
    (pre ++ p :: post).find? f = some p := by
  induction pre with
  | nil => simp [List.find?, hp]
  | cons a rest ih =>
    have ha : f a = false := hpre a (List.mem_cons_self a rest)
    simp only [List.cons_append, List.find?, ha]
    exact ih (fun q hq => hpre q (List.mem_cons_of_mem a hq))

/-- Taking `takeWhile` of a negated test stops exactly at the first hit. -/
theorem takeWhile_first {α : Type} (f : α → Bool) (pre : List α) (p : α)
    (post : List α) (hp : f p = true) (hpre : ∀ q ∈ pre, f q = false) :
    (pre ++ p :: post).takeWhile (fun q => !f q) = pre := by
  induction pre with
  | nil => simp [List.takeWhile, hp]
  | cons a rest ih =>
    have ha : f a = false := hpre a (List.mem_cons_self a rest)
    have hrec := ih (fun q hq => hpre q (List.mem_cons_of_mem a hq))
    simp only [List.cons_append, List.takeWhile, ha, Bool.not_false]
    exact congrArg (a :: ·) hrec

/-- C3: first-match-wins.  If rule `p` is the first rule (in declared
order) matching the row's trimmed content, the loop emits exactly the
one record built from the row's values and stops there: the result is
`some` of that record, and only malformed rules BEFORE `p` are logged —
rules after `p` are never evaluated.  When no rule matches, nothing is
emitted. -/
theorem c3_first_match_wins (pats : List (String × PatternConfig))
    (c : String) (row : Row) :
    (∀ pre p post, pats = pre ++ p :: post → ruleHit p.2 c = true →
      (∀ q ∈ pre, ruleHit q.2 c = false) →
      (tryRules pats c row).1 = some (mkRecord c row) ∧
      (tryRules pats c row).2 =
        (pre.filter (fun q => ruleErr q.2)).map
          (fun q => LogEvent.regexError (q.2.code.getD ""))) ∧
    ((∀ p ∈ pats, ruleHit p.2 c = false) → (tryRules pats c row).1 = none) := by
  constructor
  · intro pre p post hsplit hp hpre
    subst hsplit
    rw [tryRules_eq]
    constructor
    · rw [find?_first (fun q => ruleHit q.2 c) pre p post hp hpre]
      rfl
    · rw [takeWhile_first (fun q => ruleHit q.2 c) pre p post hp hpre]
  · intro hnone
    rw [tryRules_eq]
    have h : pats.find? (fun p => ruleHit p.2 c) = none := by
      rw [List.find?_eq_none]
      intro p hp
      rw [hnone p hp]
      simp
    rw [h]
    rfl

/-- Witness for C3 at a concrete input: content "F1-101" matches both the
rule with regex "F1" and the rule with regex "F1-101"; only the first
produces the record and nothing is logged. -/
theorem c3_witness :
    ruleHit ⟨some "F1", none⟩ "F1-101" = true ∧
    ruleHit ⟨some "F1-101", none⟩ "F1-101" = true ∧
    (tryRules [("A", ⟨some "F1", none⟩), ("B", ⟨some "F1-101", none⟩)]
        "F1-101"
        ⟨PyVal.pystr "F1-101", PyVal.pynone, PyVal.pynone, PyVal.pynone,
          PyVal.pynone, PyVal.pynone⟩).1 =
      some (mkRecord "F1-101"
        ⟨PyVal.pystr "F1-101", PyVal.pynone, PyVal.pynone, PyVal.pynone,
          PyVal.pynone, PyVal.pynone⟩) := by
  refine ⟨by decide, by decide, ?_⟩
  exact ((c3_first_match_wins
    [("A", ⟨some "F1", none⟩), ("B", ⟨some "F1-101", none⟩)] "F1-101"
    ⟨PyVal.pystr "F1-101", PyVal.pynone, PyVal.pynone, PyVal.pynone,
      PyVal.pynone, PyVal.pynone⟩).1 [] ("A", ⟨some "F1", none⟩)
    [("B", ⟨some "F1-101", none⟩)] rfl (by decide) (by intro q hq; simp at hq)).1

/-- C4 counterexample: a row whose content is the single-space string
" " is NOT skipped (only None/NaN or the exactly-empty string are), and
after trimming it becomes "" which still matches the regex "a*" — so a
record IS emitted, contradicting "emits no Classified Record ... under
every rule configuration" for content that is empty after trimming. -/
theorem c4_counterexample :
    pyStrip (pyStrOf (PyVal.pystr " ")) = "" ∧
    (processFile [("A", ⟨some "a*", none⟩)]
        [⟨PyVal.pystr " ", PyVal.pynone, PyVal.pynone, PyVal.pynone,
          PyVal.pynone, PyVal.pynone⟩]).1.length = 1 := by
  exact ⟨by decide, by decide⟩

/-- C4 (amended): the classifier skips exactly the rows whose content is
null (None/NaN) or the exactly-empty string "" — those emit no record
and no log.  (Whitespace-only content is only trimmed AFTER this check
and can still match a rule.) -/
theorem c4_amended (pats : List (String × PatternConfig)) (row : Row)
    (h : pyIsna row.content = true ∨ row.content = PyVal.pystr "") :
    processRow pats row = (none, []) := by
  rcases h with h | h
  · simp [processRow, h]
  · simp [processRow, h, pyIsna, pyEqEmpty]

/-- Witness for C4 (amended) at a concrete input. -/
theorem c4_witness :
    (pyIsna PyVal.nan = true ∨ PyVal.nan = PyVal.pystr "") ∧
    processRow [("G", ⟨some "GND", none⟩)]
      ⟨PyVal.nan, PyVal.pynone, PyVal.pynone, PyVal.pynone, PyVal.pynone,
        PyVal.pynone⟩ = (none, []) :=
  ⟨Or.inl rfl, c4_amended _ _ (Or.inl rfl)⟩

/-- C5 counterexample: two identical input rows (equal content, x, y, z,
layer) each contribute a record, and the two records carry the same id —
the output table is NOT deduplicated. -/
theorem c5_counterexample :
    ((outputTable [("G", ⟨some "GND", none⟩)]
        [⟨PyVal.pystr "GND", PyVal.pynone, PyVal.pynone, PyVal.pynone,
          PyVal.pynone, PyVal.pynone⟩,
         ⟨PyVal.pystr "GND", PyVal.pynone, PyVal.pynone, PyVal.pynone,
          PyVal.pynone, PyVal.pynone⟩]).getD []).length = 2 ∧
    ¬ (((outputTable [("G", ⟨some "GND", none⟩)]
        [⟨PyVal.pystr "GND", PyVal.pynone, PyVal.pynone, PyVal.pynone,
          PyVal.pynone, PyVal.pynone⟩,
         ⟨PyVal.pystr "GND", PyVal.pynone, PyVal.pynone, PyVal.pynone,
          PyVal.pynone, PyVal.pynone⟩]).getD []).map
        ClassifiedRecord.id).Nodup := by
  exact ⟨by decide, by decide⟩

/-- C5 (amended): the classifier performs no deduplication — each
matching row contributes exactly one record, so the output record count
equals the number of matching rows, and rows with identical
(content, x, y, z, layer) tuples contribute one record EACH (with equal
ids, since the id is content-addressed). -/
theorem c5_amended (pats : List (String × PatternConfig)) (rows : List Row) :
    (processFile pats rows).1.length =
      rows.countP (fun row => ((processRow pats row).1).isSome) := by
  induction rows with
  | nil => rfl
  | cons row rest ih =>
    rcases h : (processRow pats row).1 with _ | r
    · simp [processFile, h, ih, List.countP_cons]
    · simp [processFile, h, ih, List.countP_cons, Nat.add_comm]

/-- C6 counterexample: for an input row whose content is " GND " (with
surrounding spaces), the emitted record's content is the TRIMMED string
"GND", not the content exactly as read. -/
theorem c6_counterexample :
    ((processFile [("G", ⟨some "GND", none⟩)]
        [⟨PyVal.pystr " GND ", PyVal.pynone, PyVal.pynone, PyVal.pynone,
          PyVal.pynone, PyVal.pynone⟩]).1.map ClassifiedRecord.content) =
      ["GND"] ∧
    ("GND" : String) ≠ " GND " := by
  exact ⟨by decide, by decide⟩

/-- C6 (amended): every emitted record takes `x`, `y`, `z`, `layer`,
`style` unchanged from its source row, but its `content` field holds the
TRIMMED string form of the row's content (`str(content).strip()`), not
the raw value. -/
theorem c6_amended (pats : List (String × PatternConfig)) (rows : List Row)
    (r : ClassifiedRecord) (hr : r ∈ (processFile pats rows).1) :
    ∃ row, row ∈ rows ∧ r.content = pyStrip (pyStrOf row.content) ∧
      r.x = row.x ∧ r.y = row.y ∧ r.z = row.z ∧ r.layer = row.layer ∧
      r.style = row.style := by
  obtain ⟨row, hm, heq⟩ := processFile_mem hr
  subst heq
  exact ⟨row, hm, rfl, rfl, rfl, rfl, rfl, rfl⟩

/-- Witness for C6 (amended) at a concrete input. -/
theorem c6_witness :
    (mkRecord "GND" ⟨PyVal.pystr " GND ", PyVal.pynone, PyVal.pynone,
        PyVal.pynone, PyVal.pynone, PyVal.pynone⟩) ∈
      (processFile [("G", ⟨some "GND", none⟩)]
        [⟨PyVal.pystr " GND ", PyVal.pynone, PyVal.pynone, PyVal.pynone,
          PyVal.pynone, PyVal.pynone⟩]).1 ∧
    ∃ row, row ∈ [(⟨PyVal.pystr " GND ", PyVal.pynone, PyVal.pynone,
        PyVal.pynone, PyVal.pynone, PyVal.pynone⟩ : Row)] ∧
      (mkRecord "GND" ⟨PyVal.pystr " GND ", PyVal.pynone, PyVal.pynone,
        PyVal.pynone, PyVal.pynone, PyVal.pynone⟩).content =
        pyStrip (pyStrOf row.content) ∧
      (mkRecord "GND" ⟨PyVal.pystr " GND ", PyVal.pynone, PyVal.pynone,
        PyVal.pynone, PyVal.pynone, PyVal.pynone⟩).x = row.x ∧
      (mkRecord "GND" ⟨PyVal.pystr " GND ", PyVal.pynone, PyVal.pynone,
        PyVal.pynone, PyVal.pynone, PyVal.pynone⟩).y = row.y ∧
      (mkRecord "GND" ⟨PyVal.pystr " GND ", PyVal.pynone, PyVal.pynone,
        PyVal.pynone, PyVal.pynone, PyVal.pynone⟩).z = row.z ∧
      (mkRecord "GND" ⟨PyVal.pystr " GND ", PyVal.pynone, PyVal.pynone,
        PyVal.pynone, PyVal.pynone, PyVal.pynone⟩).layer = row.layer ∧
      (mkRecord "GND" ⟨PyVal.pystr " GND ", PyVal.pynone, PyVal.pynone,
        PyVal.pynone, PyVal.pynone, PyVal.pynone⟩).style = row.style := by
  have hm : (mkRecord "GND" ⟨PyVal.pystr " GND ", PyVal.pynone, PyVal.pynone,
      PyVal.pynone, PyVal.pynone, PyVal.pynone⟩) ∈
      (processFile [("G", ⟨some "GND", none⟩)]
        [⟨PyVal.pystr " GND ", PyVal.pynone, PyVal.pynone, PyVal.pynone,
          PyVal.pynone, PyVal.pynone⟩]).1 := by decide
  exact ⟨hm, c6_amended _ _ _ hm⟩

/-- C7: for a rule whose pattern compiles, the modelled `re.match` test
succeeds exactly when the regex matches starting at position 0 of the
content — matching only a (possibly proper) prefix suffices; full
consumption of the string is not required. -/
theorem c7_prefix_match (pattern : String) (r : Rx) (s : String)
    (h : pyCompile pattern = some r) :
    pyReMatch pattern s = Except.ok true ↔
      ∃ p q, p ++ q = s.toList ∧ p ∈ r.matches' := by
  unfold pyReMatch
  rw [h, ← matchHere_iff_matches]
  simp

/-- Witness for C7: the pattern "^F1" matches "F1-101" at position 0 by
consuming only the proper prefix "F1". -/
theorem c7_witness :
    pyCompile "^F1" = some (RegularExpression.comp (RegularExpression.char 'F')
      (RegularExpression.comp (RegularExpression.char '1') 1)) ∧
    pyReMatch "^F1" "F1-101" = Except.ok true := by
  refine ⟨rfl, ?_⟩
  have hlang : ['F', '1'] ∈ (RegularExpression.comp (RegularExpression.char 'F')
      (RegularExpression.comp (RegularExpression.char '1') 1)).matches' :=
    (RegularExpression.rmatch_iff_matches' _ _).mp (by decide)
  exact (c7_prefix_match "^F1" (RegularExpression.comp (RegularExpression.char 'F')
      (RegularExpression.comp (RegularExpression.char '1') 1)) "F1-101" rfl).mpr
    ⟨['F', '1'], ['-', '1', '0', '1'], rfl, hlang⟩

/-- C8: a rule whose regex is malformed (raises `re.error`) logs a
recoverable per-rule error, produces no match for the row, and the loop
continues with the subsequent rules: the outcome for the whole rule list
is the outcome for the remaining rules, with the error prepended to the
log — processing is not aborted. -/
theorem c8_malformed_regex_recoverable (lbl : String) (pc : PatternConfig)
    (rest : List (String × PatternConfig)) (c : String) (row : Row)
    (rx : String) (hcode : pc.code = some rx) (hrx : rx ≠ "")
    (hbad : pyCompile rx = none) :
    tryRules ((lbl, pc) :: rest) c row =
      ((tryRules rest c row).1,
        LogEvent.regexError rx :: (tryRules rest c row).2) := by
  simp only [tryRules, hcode, if_neg hrx, hbad]

/-- Witness for C8: the pattern "(" (unbalanced parenthesis, a
`re.error` in Python) on the first rule is logged and the second rule
still processes the row. -/
theorem c8_witness :
    pyCompile "(" = none ∧
    tryRules [("A", ⟨some "(", none⟩), ("G", ⟨some "GND", none⟩)] "GND"
        ⟨PyVal.pystr "GND", PyVal.pynone, PyVal.pynone, PyVal.pynone,
          PyVal.pynone, PyVal.pynone⟩ =
      ((tryRules [("G", ⟨some "GND", none⟩)] "GND"
          ⟨PyVal.pystr "GND", PyVal.pynone, PyVal.pynone, PyVal.pynone,
            PyVal.pynone, PyVal.pynone⟩).1,
        LogEvent.regexError "(" ::
          (tryRules [("G", ⟨some "GND", none⟩)] "GND"
            ⟨PyVal.pystr "GND", PyVal.pynone, PyVal.pynone, PyVal.pynone,
              PyVal.pynone, PyVal.pynone⟩).2) :=
  ⟨rfl, c8_malformed_regex_recoverable "A" ⟨some "(", none⟩
    [("G", ⟨some "GND", none⟩)] "GND"
    ⟨PyVal.pystr "GND", PyVal.pynone, PyVal.pynone, PyVal.pynone,
      PyVal.pynone, PyVal.pynone⟩ "(" rfl (by decide) rfl⟩

namespace Projector

/-- The index `colIndex` finds a position holding the searched name. -/
theorem colIndex_some {cols : List String} {t : String} {j : Nat}
    (h : colIndex cols t = some j) : cols[j]? = some t := by
  induction cols generalizing j with
  | nil => simp [colIndex] at h
  | cons c rest ih =>
    by_cases hc : c = t
    · simp only [colIndex, if_pos hc] at h
      obtain rfl := Option.some_injective _ h
      simp [hc]
    · simp only [colIndex, if_neg hc] at h
      rcases hrec : colIndex rest t with _ | j'
      · rw [hrec] at h
        simp at h
      · rw [hrec] at h
        simp only [Option.map_some'] at h
        obtain rfl := Option.some_injective _ h.symm
        simpa using ih hrec

/-- When no keyword occurs in the name, the keyword loop returns
"default". -/
theorem findKeyword_default (ks : List String) (name : String)
    (h : ∀ kw ∈ ks, strContains name kw = false) :
    findKeyword ks name = "default" := by
  induction ks with
  | nil => rfl
  | cons k rest ih =>
    have hk := h k (List.mem_cons_self k rest)
    simp only [findKeyword, hk, Bool.false_eq_true, if_false]
    exact ih (fun kw hkw => h kw (List.mem_cons_of_mem _ hkw))

/-- The keyword loop returns the first keyword that occurs in the name. -/
theorem findKeyword_first (pre : List String) (k : String) (post : List String)
    (name : String) (hk : strContains name k = true)
    (hpre : ∀ kw ∈ pre, strContains name kw = false) :
    findKeyword (pre ++ k :: post) name = k := by
  induction pre with
  | nil => simp [findKeyword, hk]
  | cons a rest ih =>
    have ha := hpre a (List.mem_cons_self a rest)
    simp only [List.cons_append, findKeyword, ha, Bool.false_eq_true, if_false]
    exact ih (fun kw hkw => hpre kw (List.mem_cons_of_mem _ hkw))

/-- C9: the projector's lookup key is the first keyword of the fixed
ordered list occurring as a substring of the file name's stem
(extension stripped), "default" when none occurs; and when the resolved
key is absent from the configured mapping, the mapping's own "default"
entry supplies the column list. -/
theorem c9_keyword_lookup (filename : String)
    (mapping : List (String × MapEntry)) :
    ((∀ kw ∈ keywords, ¬ (kw.toList <:+: (pathStem filename).toList)) →
      get_file_keyword filename = "default") ∧
    (∀ pre k post, keywords = pre ++ k :: post →
      (k.toList <:+: (pathStem filename).toList) →
      (∀ kw ∈ pre, ¬ (kw.toList <:+: (pathStem filename).toList)) →
      get_file_keyword filename = k) ∧
    (mapping.lookup (get_file_keyword filename) = none →
      resolveColumns mapping (get_file_keyword filename) =
        ((mapping.lookup "default").map MapEntry.columns).getD []) := by
  refine ⟨?_, ?_, ?_⟩
  · intro h
    exact findKeyword_default keywords (pathStem filename)
      (fun kw hkw => by simpa [strContains] using h kw hkw)
  · intro pre k post hsplit hk hpre
    unfold get_file_keyword
    rw [hsplit]
    exact findKeyword_first pre k post (pathStem filename)
      (by simpa [strContains] using hk)
      (fun kw hkw => by simpa [strContains] using hpre kw hkw)
  · intro h
    unfold resolveColumns
    rw [h]
    rcases hd : mapping.lookup "default" with _ | e
    · rfl
    · rfl

/-- Witness for C9: the file name "B1能耗计量_2024.csv" resolves to the
keyword "B1能耗计量" (the six more specific keywords do not occur in the
stem), and with a mapping that lacks this key, the "default" entry's
columns are used. -/
theorem c9_witness :
    get_file_keyword "B1能耗计量_2024.csv" = "B1能耗计量" ∧
    resolveColumns [("default", ⟨["col1"], none⟩)]
      (get_file_keyword "B1能耗计量_2024.csv") = ["col1"] := by
  have h2 := (c9_keyword_lookup "B1能耗计量_2024.csv"
      [("default", ⟨["col1"], none⟩)]).2.1
    ["L3M2能耗计量", "L3M1能耗计量", "L2M能耗计量", "L1M2能耗计量", "L1M1能耗计量",
      "B2能耗计量"]
    "B1能耗计量" ["L3能耗计量", "L2能耗计量", "L1能耗计量"] rfl (by decide) (by decide)
  have h3 := (c9_keyword_lookup "B1能耗计量_2024.csv"
      [("default", ⟨["col1"], none⟩)]).2.2 (by rw [h2]; decide)
  refine ⟨h2, ?_⟩
  rw [h3]
  decide

/-- A member of the header has a column index. -/
theorem colIndex_isSome {cols : List String} {c : String} (h : c ∈ cols) :
    ∃ j, colIndex cols c = some j := by
  induction cols with
  | nil => simp at h
  | cons a rest ih =>
    by_cases hac : a = c
    · exact ⟨0, by simp [colIndex, hac]⟩
    · have hc : c ∈ rest := by
        rcases List.mem_cons.mp h with h1 | h1
        · exact absurd h1.symm hac
        · exact h1
      obtain ⟨j, hj⟩ := ih hc
      exact ⟨j + 1, by simp [colIndex, hac, hj]⟩

/-- Reading back a cell of a row built by mapping a function over the
header yields that function's value at the column. -/
theorem cellOf_map (cols : List String) (f : String → String) (c : String)
    (hc : c ∈ cols) : cellOf cols (cols.map f) c = f c := by
  obtain ⟨j, hj⟩ := colIndex_isSome hc
  have hg : cols[j]? = some c := colIndex_some hj
  unfold cellOf
  rw [hj]
  have hmap : (cols.map f)[j]? = some (f c) := by
    rw [List.getElem?_map, hg]
    rfl
  show (cols.map f).getD j "" = f c
  rw [List.getD_eq_getElem?_getD, hmap]
  rfl

/-- C10: the projector keeps exactly the requested columns that exist in
the source, in the requested order; when none exists it writes nothing
and logs an error; otherwise the output has the same number of rows in
the same order, and every kept column's cell values agree with the
source. -/
theorem c10_projection (df : DataFrame) (columns : List String) :
    ((∀ c ∈ columns, c ∉ df.columns) →
      (process_csv_file df columns).1 = none ∧
      ProjLog.noColumns ∈ (process_csv_file df columns).2) ∧
    (∀ t, (process_csv_file df columns).1 = some t →
      List.Sublist t.columns columns ∧
      (∀ c, c ∈ t.columns ↔ c ∈ columns ∧ c ∈ df.columns) ∧
      t.rows.length = df.rows.length ∧
      (∀ i c, c ∈ t.columns → valueAt t i c = valueAt df i c)) := by
  constructor
  · intro h
    have hempty : columns.filter (fun c => decide (c ∈ df.columns)) = [] := by
      rw [List.filter_eq_nil_iff]
      intro c hc
      simpa using h c hc
    constructor
    · simp [process_csv_file, hempty]
    · simp [process_csv_file, hempty]
  · intro t ht
    by_cases he : (columns.filter (fun c => decide (c ∈ df.columns))).isEmpty = true
    · exfalso
      simp [process_csv_file, he] at ht
    · have he' : (columns.filter (fun c => decide (c ∈ df.columns))).isEmpty = false := by
        simpa using he
      have ht' : t = ⟨columns.filter (fun c => decide (c ∈ df.columns)),
          df.rows.map (fun row =>
            (columns.filter (fun c => decide (c ∈ df.columns))).map
              (cellOf df.columns row))⟩ := by
        simp only [process_csv_file, he', Bool.false_eq_true, if_false,
          Option.some.injEq] at ht
        exact ht.symm
      subst ht'
      refine ⟨List.filter_sublist columns, ?_, ?_, ?_⟩
      · intro c
        simp [List.mem_filter]
      · simp
      · intro i c hc
        unfold valueAt
        simp only [List.getElem?_map]
        rcases hrow : df.rows[i]? with _ | row
        · rfl
        · simp only [Option.map_some']
          exact congrArg some (cellOf_map _ (cellOf df.columns row) c hc)

/-- Witness for C10 at the spec's scenario 5: requested columns
a, b, c over a source with columns a, c. -/
theorem c10_witness :
    (process_csv_file ⟨["a", "c"], [["1", "3"]]⟩ ["a", "b", "c"]).1 =
      some ⟨["a", "c"], [["1", "3"]]⟩ ∧
    List.Sublist (["a", "c"] : List String) ["a", "b", "c"] ∧
    ("b" ∈ (["a", "c"] : List String) ↔
      "b" ∈ (["a", "b", "c"] : List String) ∧
      "b" ∈ (⟨["a", "c"], [["1", "3"]]⟩ : DataFrame).columns) ∧
    ([["1", "3"]] : List (List String)).length =
      (⟨["a", "c"], [["1", "3"]]⟩ : DataFrame).rows.length ∧
    valueAt ⟨["a", "c"], [["1", "3"]]⟩ 0 "c" =
      valueAt ⟨["a", "c"], [["1", "3"]]⟩ 0 "c" := by
  have hsome : (process_csv_file ⟨["a", "c"], [["1", "3"]]⟩
      ["a", "b", "c"]).1 = some ⟨["a", "c"], [["1", "3"]]⟩ := by decide
  have h := (c10_projection ⟨["a", "c"], [["1", "3"]]⟩ ["a", "b", "c"]).2
    ⟨["a", "c"], [["1", "3"]]⟩ hsome
  exact ⟨hsome, h.1, h.2.1 "b", h.2.2.1, h.2.2.2 0 "c" (by decide)⟩

end Projector

end GetCsvInfo
